import Mathlib

/-!
# Verification of the accounting counter (`src/cmd/accounting-reader.go`)

Shallow embedding of the `accounter` component of the `mc` repository.
Machine `int64` values are modelled as `Int` reduced into the two's-complement
range by `int64wrap` at every point where the Go code stores into the atomic
`current` field; `time.Time`/`time.Duration` values are modelled as `Int`
nanosecond counts (a `time.Duration` is an `int64` nanosecond count in Go, and
`time.Time` subtraction yields one); the `float64` speed value is modelled as
an exact rational `ℚ` (the quotient the Go code computes, in exact
arithmetic).  The `sync.Once` latch is modelled by the Boolean field
`finishOnceDone`, and `close(a.isFinished)` by the Boolean field
`isFinishedClosed`.  Go goroutine interleaving is modelled where a claim needs
it: `statBodyReads` exposes the two distinct reads of `current` inside `Stat`,
and `writerLoop` runs the background `writer` loop over an explicit list of
`select` outcomes.
-/

set_option maxHeartbeats 1000000

namespace AccountingReader

/-- Two's-complement reduction of an integer into the signed 64-bit range
`[-2^63, 2^63)`, the semantics of storing into a Go `int64`
(`atomic.AddInt64` wraps on overflow). -/
def int64wrap (x : Int) : Int := (x + 2 ^ 63) % 2 ^ 64 - 2 ^ 63

/-- The `accounter` struct of `accounting-reader.go` (lines 26-36).
`finishOnceDone` models the consumed state of the `sync.Once` field
`finishOnce`; `isFinishedClosed` models whether the channel `isFinished`
has been closed. -/
structure accounter where
  current : Int
  Total : Int
  startTime : Int
  startValue : Int
  refreshRate : Int
  currentValue : Int
  finishOnceDone : Bool
  isFinishedClosed : Bool
deriving Repr, DecidableEq

/-- The `accountStat` struct (lines 77-81): the snapshot returned by `Stat`. -/
structure accountStat where
  Total : Int
  Transferred : Int
  Speed : ℚ
deriving Repr, DecidableEq

/-- `newAccounter` (lines 39-50).  `now` is the nanosecond timestamp captured
by `time.Now()`.  The Go struct literal leaves `current` at its zero value 0;
`refreshRate` is `time.Millisecond * 200` = 2·10^8 ns; `currentValue` is -1.
The spawned `go acct.writer()` goroutine is modelled separately by
`writerLoop`. -/
def newAccounter (total : Int) (now : Int) : accounter :=
  { current := 0
    Total := total
    startTime := now
    startValue := 0
    refreshRate := 200 * 1000000
    currentValue := -1
    finishOnceDone := false
    isFinishedClosed := false }

/-- `write` (lines 53-61): the speed formula.  `now` is the nanosecond
timestamp of the `time.Now()` call on line 54, so `fromStart` is the elapsed
duration in nanoseconds and `float64(fromStart)/float64(time.Second)` is the
elapsed time in seconds; the `float64` quotient is modelled as an exact
rational. -/
def write (a : accounter) (current : Int) (now : Int) : ℚ :=
  let fromStart : Int := now - a.startTime
  let currentFromStart : Int := current - a.startValue
  if currentFromStart > 0 then
    (currentFromStart : ℚ) / ((fromStart : ℚ) / (1000000000 : ℚ))
  else
    0

/-- The body of `Stat`'s `finishOnce.Do` closure (lines 88-90), with the two
reads of `a.current` made explicit: `c1` is the value observed by the plain
(non-atomic) read `acntStat.Transferred = a.current` on line 89, and `c2` is
the value observed by the separate `atomic.LoadInt64(&a.current)` on line 90.
In a sequential execution `c1 = c2`; a concurrent `Add` landing between the
two reads makes them differ. -/
def statBodyReads (a : accounter) (c1 c2 : Int) (now : Int) : accountStat :=
  { Total := a.Total, Transferred := c1, Speed := write a c2 now }

/-- `Stat` (lines 84-93) as a sequential state transformer.  The local
`var acntStat accountStat` starts at the zero value `{0, 0, 0}`; the
`finishOnce.Do` body runs only if the latch is unconsumed, closing
`isFinished` and filling the local from the current state (both reads of
`current` observe the same value in a sequential execution); otherwise the
zero-valued local is returned unchanged. -/
def Stat (a : accounter) (now : Int) : accountStat × accounter :=
  if a.finishOnceDone then
    ({ Total := 0, Transferred := 0, Speed := 0 }, a)
  else
    (statBodyReads a a.current a.current now,
     { a with finishOnceDone := true, isFinishedClosed := true })

/-- `Update` (lines 96-102): atomically loads `current`; when it differs from
the cached `currentValue`, recomputes the speed via `write` (result
discarded) and refreshes the cache. -/
def Update (a : accounter) : accounter :=
  let c := a.current
  if c ≠ a.currentValue then { a with currentValue := c } else a

/-- `Set` (lines 105-108): atomically overwrites `current` with `n` and
returns the accounter (for chaining); the returned value is the updated
state. -/
def Set (a : accounter) (n : Int) : accounter :=
  { a with current := int64wrap n }

/-- `Add` (lines 111-113): `atomic.AddInt64` adds `n` to `current` with
two's-complement wrap-around and returns the new value. -/
def Add (a : accounter) (n : Int) : Int × accounter :=
  let c := int64wrap (a.current + n)
  (c, { a with current := c })

/-- `Read` (lines 116-120): `n = len(p)` (modelled by the buffer length
`p_len`), then `a.Add(int64(n))` with the result discarded, returning
`(n, nil)`; the `nil` error is modelled as `none`. -/
def Read (a : accounter) (p_len : Nat) : (Nat × Option String) × accounter :=
  ((p_len, none), (Add a (p_len : Int)).2)

/-- The operations a caller (or the background goroutine) can invoke on an
`accounter` after construction. -/
inductive AcctOp where
  | add (n : Int)
  | set (n : Int)
  | read (len : Nat)
  | update
  | stat (now : Int)
deriving Repr, DecidableEq

/-- The state effect of one operation. -/
def applyOp (a : accounter) : AcctOp → accounter
  | .add n => (Add a n).2
  | .set n => Set a n
  | .read l => (Read a l).2
  | .update => Update a
  | .stat now => (Stat a now).2

/-- Run a sequence of operations left to right. -/
def runOps (a : accounter) (ops : List AcctOp) : accounter :=
  ops.foldl applyOp a

/-- Whether an operation is an invocation of `Stat`. -/
def isStat : AcctOp → Bool
  | .add _ => false
  | .set _ => false
  | .read _ => false
  | .update => false
  | .stat _ => true

/-- Number of times `close(a.isFinished)` executes while running `ops` from
state `a`: a `Stat` call closes the channel exactly when the `sync.Once`
latch is still unconsumed (line 87 runs inside `finishOnce.Do`). -/
def closeCount : accounter → List AcctOp → Nat
  | _, [] => 0
  | a, op :: ops =>
      (if isStat op = true ∧ a.finishOnceDone = false then 1 else 0) +
        closeCount (applyOp a op) ops

/-- One iteration outcome of the `select` in `writer` (lines 67-72): either
the `<-a.isFinished` case fires (`stop`) or the `<-time.After(a.refreshRate)`
case fires (`tick`). -/
inductive WriterEv where
  | tick
  | stop
deriving Repr, DecidableEq

/-- The loop of `writer` (lines 66-73) over an explicit list of `select`
outcomes: on `stop` the goroutine returns at once, on `tick` it calls
`a.Update()` and loops. -/
def writerLoop : accounter → List WriterEv → accounter
  | a, [] => a
  | a, .stop :: _ => a
  | a, .tick :: evs => writerLoop (Update a) evs

/-- `writer` (lines 64-74): one unconditional `a.Update()` before entering
the loop. -/
def writer (a : accounter) (evs : List WriterEv) : accounter :=
  writerLoop (Update a) evs

/-- Amount an operation adds to `current` (0 for the non-additive ones). -/
def opAmount : AcctOp → Int
  | .add n => n
  | .set _ => 0
  | .read l => (l : Int)
  | .update => 0
  | .stat _ => 0

/-- Operations admitted by the monotonicity invariant: everything except
`set`, with `add` restricted to non-negative amounts. -/
def goodOp : AcctOp → Bool
  | .add n => decide (0 ≤ n)
  | .set _ => false
  | .read _ => true
  | .update => true
  | .stat _ => true

/-! ## Helper lemmas -/

/-- Storing a value already in the signed 64-bit range does not change it. -/
theorem int64wrap_eq_self {x : Int} (h1 : -(2 ^ 63) ≤ x) (h2 : x < 2 ^ 63) :
    int64wrap x = x := by
  unfold int64wrap
  have h0 : (0 : Int) ≤ x + 2 ^ 63 := by linarith
  have hpow : (2 : Int) ^ 64 = 2 ^ 63 + 2 ^ 63 := by norm_num
  have hlt : x + 2 ^ 63 < 2 ^ 64 := by rw [hpow]; linarith
  rw [Int.emod_eq_of_lt h0 hlt]
  ring

/-- `Update` touches only the `currentValue` cache. -/
theorem Update_frame (a : accounter) :
    (Update a).current = a.current ∧ (Update a).Total = a.Total ∧
    (Update a).startTime = a.startTime ∧ (Update a).startValue = a.startValue ∧
    (Update a).refreshRate = a.refreshRate ∧
    (Update a).finishOnceDone = a.finishOnceDone ∧
    (Update a).isFinishedClosed = a.isFinishedClosed := by
  simp only [Update]
  split_ifs <;> simp

/-- The state left behind by `Stat` differs from the input at most in the
latch and channel flags. -/
theorem Stat_snd_frame (a : accounter) (now : Int) :
    ((Stat a now).2).current = a.current ∧ ((Stat a now).2).Total = a.Total ∧
    ((Stat a now).2).startTime = a.startTime ∧
    ((Stat a now).2).startValue = a.startValue ∧
    ((Stat a now).2).refreshRate = a.refreshRate ∧
    ((Stat a now).2).currentValue = a.currentValue := by
  unfold Stat
  split <;> simp

/-- After any `Stat` call the `sync.Once` latch is consumed. -/
theorem Stat_snd_done (a : accounter) (now : Int) :
    ((Stat a now).2).finishOnceDone = true := by
  unfold Stat
  split
  · next h => simpa using h
  · simp

/-- An operation that is not a `Stat` call leaves the latch flag unchanged. -/
theorem applyOp_finishOnceDone_of_not_stat (a : accounter) (op : AcctOp)
    (hop : isStat op = false) :
    (applyOp a op).finishOnceDone = a.finishOnceDone := by
  cases op with
  | add n => simp [applyOp, Add]
  | set n => simp [applyOp, Set]
  | read l => simp [applyOp, Read, Add]
  | update => exact (Update_frame a).2.2.2.2.2.1
  | stat now => simp [isStat] at hop

/-- A consumed latch stays consumed under every operation. -/
theorem applyOp_finishOnceDone_of_done (a : accounter) (op : AcctOp)
    (h : a.finishOnceDone = true) :
    (applyOp a op).finishOnceDone = true := by
  cases op with
  | stat now => exact Stat_snd_done a now
  | add n => simpa [applyOp, Add] using h
  | set n => simpa [applyOp, Set] using h
  | read l => simpa [applyOp, Read, Add] using h
  | update =>
      show (Update a).finishOnceDone = true
      rw [(Update_frame a).2.2.2.2.2.1]; exact h

/-- Once the latch is consumed, no later operation closes the channel again. -/
theorem closeCount_of_done (ops : List AcctOp) :
    ∀ a : accounter, a.finishOnceDone = true → closeCount a ops = 0 := by
  induction ops with
  | nil => intro a _; rfl
  | cons op ops ih =>
      intro a h
      unfold closeCount
      rw [ih (applyOp a op) (applyOp_finishOnceDone_of_done a op h)]
      simp [h]

/-- From an unconsumed latch, running `ops` closes the channel exactly once
when `ops` contains a `Stat` call, and never otherwise. -/
theorem closeCount_of_not_done (ops : List AcctOp) :
    ∀ a : accounter, a.finishOnceDone = false →
      closeCount a ops = if ops.any isStat then 1 else 0 := by
  induction ops with
  | nil => intro a _; simp [closeCount]
  | cons op ops ih =>
      intro a h
      unfold closeCount
      cases hop : isStat op with
      | true =>
          have hdone : (applyOp a op).finishOnceDone = true := by
            cases op with
            | stat now => exact Stat_snd_done a now
            | add n => simp [isStat] at hop
            | set n => simp [isStat] at hop
            | read l => simp [isStat] at hop
            | update => simp [isStat] at hop
          rw [closeCount_of_done ops (applyOp a op) hdone]
          simp [hop, h]
      | false =>
          have hkeep : (applyOp a op).finishOnceDone = false := by
            rw [applyOp_finishOnceDone_of_not_stat a op hop]; exact h
          rw [ih (applyOp a op) hkeep]
          simp [hop, h]

/-- `goodOp` operations add a non-negative amount. -/
theorem opAmount_nonneg (op : AcctOp) (h : goodOp op = true) : 0 ≤ opAmount op := by
  cases op with
  | add n => exact of_decide_eq_true h
  | set n => simp [goodOp] at h
  | read l => simp [opAmount]
  | update => simp [opAmount]
  | stat now => simp [opAmount]

/-- The total amount added by a list of `goodOp` operations is non-negative. -/
theorem sumAmounts_nonneg (ops : List AcctOp)
    (h : ∀ op ∈ ops, goodOp op = true) : 0 ≤ (ops.map opAmount).sum := by
  induction ops with
  | nil => simp
  | cons op ops ih =>
      simp only [List.map_cons, List.sum_cons]
      have h1 := opAmount_nonneg op (h op (by simp))
      have h2 := ih (fun o ho => h o (by simp [ho]))
      linarith

/-- A single `goodOp` operation adds exactly its amount to `current` when the
addition stays inside the int64 range. -/
theorem applyOp_current_good (a : accounter) (op : AcctOp)
    (hgop : goodOp op = true)
    (hlo : -(2 ^ 63) ≤ a.current)
    (hb : a.current + opAmount op < 2 ^ 63) :
    (applyOp a op).current = a.current + opAmount op := by
  cases op with
  | add n =>
      have hn : 0 ≤ n := of_decide_eq_true hgop
      simp only [applyOp, Add, opAmount] at hb ⊢
      exact int64wrap_eq_self (by linarith) hb
  | set n => simp [goodOp] at hgop
  | read l =>
      have hl : (0 : Int) ≤ (l : Int) := Int.natCast_nonneg l
      simp only [applyOp, Read, Add, opAmount] at hb ⊢
      exact int64wrap_eq_self (by linarith) hb
  | update =>
      simp only [applyOp, opAmount, Int.add_zero]
      exact (Update_frame a).1
  | stat now =>
      simp only [applyOp, opAmount, Int.add_zero]
      exact (Stat_snd_frame a now).1

/-- Running a list of `goodOp` operations whose total stays inside the int64
range adds exactly the sum of their amounts to `current`. -/
theorem runOps_current_eq (ops : List AcctOp) :
    ∀ a : accounter, -(2 ^ 63) ≤ a.current →
      (∀ op ∈ ops, goodOp op = true) →
      a.current + (ops.map opAmount).sum < 2 ^ 63 →
      (runOps a ops).current = a.current + (ops.map opAmount).sum := by
  induction ops with
  | nil => intro a _ _ _; simp [runOps]
  | cons op ops ih =>
      intro a hlo hg hb
      have hgop := hg op (by simp)
      have hgops : ∀ o ∈ ops, goodOp o = true := fun o ho => hg o (by simp [ho])
      have hsum := sumAmounts_nonneg ops hgops
      have hamt := opAmount_nonneg op hgop
      simp only [List.map_cons, List.sum_cons] at hb ⊢
      have hb1 : a.current + opAmount op < 2 ^ 63 := by linarith
      have hc := applyOp_current_good a op hgop hlo hb1
      have step : runOps a (op :: ops) = runOps (applyOp a op) ops := rfl
      rw [step, ih (applyOp a op) (by rw [hc]; linarith) hgops (by rw [hc]; linarith), hc]
      ring

/-- Iterating `Update` changes nothing but the `currentValue` cache. -/
theorem Update_iterate_frame (k : Nat) :
    ∀ a : accounter,
      (Update^[k] a).current = a.current ∧
      (Update^[k] a).startValue = a.startValue ∧
      (Update^[k] a).startTime = a.startTime ∧
      (Update^[k] a).finishOnceDone = a.finishOnceDone ∧
      (Update^[k] a).Total = a.Total := by
  induction k with
  | zero => intro a; simp
  | succ k ih =>
      intro a
      rw [Function.iterate_succ_apply]
      have h := ih (Update a)
      have hu := Update_frame a
      exact ⟨h.1.trans hu.1, h.2.1.trans hu.2.2.2.1, h.2.2.1.trans hu.2.2.1,
        h.2.2.2.1.trans hu.2.2.2.2.2.1, h.2.2.2.2.trans hu.2.1⟩


/-- With the latch already consumed, `Stat` returns the zero-valued local. -/
theorem Stat_fst_of_done (a : accounter) (now : Int) (h : a.finishOnceDone = true) :
    (Stat a now).1 = { Total := 0, Transferred := 0, Speed := 0 } := by
  unfold Stat
  rw [if_pos h]

/-- With the latch unconsumed, `Stat` returns the snapshot computed by the
`finishOnce` body, both reads observing the sequential value of `current`. -/
theorem Stat_fst_of_not_done (a : accounter) (now : Int) (h : a.finishOnceDone = false) :
    (Stat a now).1 = statBodyReads a a.current a.current now := by
  unfold Stat
  rw [if_neg (by simp [h])]

/-- Iterating the state effect of `Stat` never changes `current`. -/
theorem statAt_iterate_current (now : Int) (k : Nat) :
    ∀ a : accounter, ((fun b => (Stat b now).2)^[k] a).current = a.current := by
  induction k with
  | zero => intro a; rfl
  | succ k ih =>
      intro a
      rw [Function.iterate_succ_apply]
      rw [ih ((Stat a now).2)]
      exact (Stat_snd_frame a now).1

/-! ## Claims -/

/-- Claim C1, counterexample: `Stat` does not cache its snapshot.  On the
accounter `newAccounter 5 0` the first `Stat` call returns the computed
snapshot `{5, 0, 0}`, but a second call skips the consumed `sync.Once` body
and returns the zero value of the local `acntStat`, namely `{0, 0, 0}`: two
invocations of `Stat` on the same counter return two different snapshots. -/
theorem stat_not_cached_cx :
    (Stat (newAccounter 5 0) 100).1 ≠ (Stat ((Stat (newAccounter 5 0) 100).2) 200).1 := by
  have h1 : (Stat (newAccounter 5 0) 100).1.Total = 5 := by
    rw [Stat_fst_of_not_done (newAccounter 5 0) 100 rfl]
    rfl
  have h2 : (Stat ((Stat (newAccounter 5 0) 100).2) 200).1.Total = 0 := by
    rw [Stat_fst_of_done ((Stat (newAccounter 5 0) 100).2) 200
      (Stat_snd_done (newAccounter 5 0) 100)]
  intro h
  rw [h, h2] at h1
  exact absurd h1 (by norm_num)

/-- Claim C1 (amended): the invocation of `Stat` that runs the `finishOnce`
body returns the snapshot computed by that single execution of the body, but
the result is not cached: every subsequent invocation returns the zero-valued
snapshot `{0, 0, 0}`, which differs from the first whenever the first is
nonzero. -/
theorem stat_second_call_zero (a : accounter) (now now2 : Int)
    (h : a.finishOnceDone = false) :
    (Stat a now).1 = statBodyReads a a.current a.current now ∧
    (Stat (Stat a now).2 now2).1 = { Total := 0, Transferred := 0, Speed := 0 } := by
  constructor
  · exact Stat_fst_of_not_done a now h
  · exact Stat_fst_of_done ((Stat a now).2) now2 (Stat_snd_done a now)

/-- Claim C1 witness: `stat_second_call_zero` applied to the fresh accounter
`newAccounter 5 0`. -/
theorem stat_second_call_zero_witness :
    (Stat (newAccounter 5 0) 100).1 = statBodyReads (newAccounter 5 0) 0 0 100 ∧
    (Stat (Stat (newAccounter 5 0) 100).2 200).1
      = { Total := 0, Transferred := 0, Speed := 0 } :=
  stat_second_call_zero (newAccounter 5 0) 100 200 rfl

/-- Claim C2, counterexample: `atomic.AddInt64` wraps on int64 overflow, so a
sequence of non-negative `Add` amounts whose mathematical sum reaches `2^63`
leaves `current` at the wrapped value `-2^63`, not at the sum. -/
theorem add_overflow_cx :
    ((Add (Add (newAccounter 0 0) (2 ^ 63 - 1)).2 1).2).current ≠ (2 ^ 63 - 1) + 1 := by
  decide

/-- Claim C2 (amended): `Add n` adds `n` to `progress` with two's-complement
int64 wrap-around and returns the new stored value; for every finite sequence
of `Add n_i` calls with `n_i ≥ 0` starting from a fresh accounter, the final
`progress` equals the sum of all `n_i` provided that sum stays below `2^63`. -/
theorem add_sum_of_updates (total t0 : Int) (ns : List Int)
    (h1 : ∀ n ∈ ns, 0 ≤ n) (h2 : ns.sum < 2 ^ 63) :
    (runOps (newAccounter total t0) (ns.map AcctOp.add)).current = ns.sum ∧
    ∀ (a : accounter) (n : Int), (Add a n).1 = ((Add a n).2).current := by
  constructor
  · have hcomp : opAmount ∘ AcctOp.add = id := by
      funext n; rfl
    have hmap : (ns.map AcctOp.add).map opAmount = ns := by
      rw [List.map_map, hcomp, List.map_id]
    have hg : ∀ op ∈ ns.map AcctOp.add, goodOp op = true := by
      intro op hop
      rcases List.mem_map.1 hop with ⟨n, hn, rfl⟩
      exact decide_eq_true (h1 n hn)
    have hcur : (newAccounter total t0).current = 0 := rfl
    have h := runOps_current_eq (ns.map AcctOp.add) (newAccounter total t0)
      (by rw [hcur]; norm_num) hg (by rw [hcur, hmap]; linarith)
    rw [h, hcur, hmap, Int.zero_add]
  · intro a n; rfl

/-- Claim C2 witness: `add_sum_of_updates` applied to the update sequence
`[40, 2]` on a fresh accounter, yielding progress 42. -/
theorem add_sum_of_updates_witness :
    (runOps (newAccounter 100 0) ([40, 2].map AcctOp.add)).current = 42 := by
  have h := add_sum_of_updates 100 0 [40, 2] (by decide) (by decide)
  rw [h.1]
  decide

/-- Claim C3: the snapshot produced by the first `Stat` call reports
`Speed = (progress_at_finalize - startValue) / elapsed_seconds` (so that
`Speed * elapsed_seconds` recovers the progress delta), where
`elapsed_seconds` is the elapsed nanoseconds since `startTime` divided by
10^9; and whenever the progress delta is ≤ 0, the reported `Speed` is
exactly 0. -/
theorem stat_speed_formula (a : accounter) (now : Int)
    (h : a.finishOnceDone = false) :
    (a.current - a.startValue > 0 → a.startTime < now →
      (Stat a now).1.Speed
          = ((a.current - a.startValue : Int) : ℚ)
              / (((now - a.startTime : Int) : ℚ) / 1000000000) ∧
      (Stat a now).1.Speed * (((now - a.startTime : Int) : ℚ) / 1000000000)
          = ((a.current - a.startValue : Int) : ℚ)) ∧
    (a.current - a.startValue ≤ 0 → (Stat a now).1.Speed = 0) := by
  have hfst : (Stat a now).1 = statBodyReads a a.current a.current now :=
    Stat_fst_of_not_done a now h
  constructor
  · intro hpos htime
    have hs : (Stat a now).1.Speed
        = ((a.current - a.startValue : Int) : ℚ)
            / (((now - a.startTime : Int) : ℚ) / 1000000000) := by
      rw [hfst]
      simp only [statBodyReads, write]
      rw [if_pos hpos]
    refine ⟨hs, ?_⟩
    rw [hs]
    have hnum : (0 : ℚ) < ((now - a.startTime : Int) : ℚ) := by
      exact_mod_cast Int.sub_pos.mpr htime
    have hne : (((now - a.startTime : Int) : ℚ) / 1000000000) ≠ 0 :=
      div_ne_zero (ne_of_gt hnum) (by norm_num)
    exact div_mul_cancel₀ _ hne
  · intro hnonpos
    rw [hfst]
    simp only [statBodyReads, write]
    rw [if_neg (not_lt.mpr hnonpos)]

/-- Claim C3 witness: on an accounter with progress 10 finalized 2 seconds
after start, `stat_speed_formula` yields speed 5 units per second, and on a
fresh accounter (delta 0) it yields speed exactly 0. -/
theorem stat_speed_formula_witness :
    (Stat (Set (newAccounter 100 0) 10) 2000000000).1.Speed = 5 ∧
    (Stat (newAccounter 100 0) 2000000000).1.Speed = 0 := by
  constructor
  · have h := ((stat_speed_formula (Set (newAccounter 100 0) 10) 2000000000 rfl).1
        (by decide) (by decide)).1
    rw [h]
    norm_num [Set, newAccounter, int64wrap]
  · exact (stat_speed_formula (newAccounter 100 0) 2000000000 rfl).2 (by decide)

/-- Claim C4, counterexample: `Set` is one of the exposed operations, and it
can decrease `progress`: `Set 500` followed by `Set 300` drops `current` from
500 to 300, so progress is not non-decreasing over all operation
sequences. -/
theorem set_decreases_cx :
    (applyOp (applyOp (newAccounter 0 0) (AcctOp.set 500)) (AcctOp.set 300)).current
      < (applyOp (newAccounter 0 0) (AcctOp.set 500)).current := by
  decide

/-- Claim C4 (amended): over every sequence of the exposed operations that
contains no `Set` (and no `Add` of a negative amount), `progress` never
decreases — at every prefix the value is at least the starting value and at
most the final value — provided the running total stays below `2^63` (int64
overflow wraps); `Set` can overwrite `progress` with a smaller value. -/
theorem progress_monotone_without_set (a : accounter) (ops l1 l2 : List AcctOp)
    (hsplit : ops = l1 ++ l2)
    (hlo : -(2 ^ 63) ≤ a.current)
    (hg : ∀ op ∈ ops, goodOp op = true)
    (hb : a.current + (ops.map opAmount).sum < 2 ^ 63) :
    a.current ≤ (runOps a l1).current ∧
    (runOps a l1).current ≤ (runOps a ops).current := by
  subst hsplit
  have hg1 : ∀ op ∈ l1, goodOp op = true := fun op hop => hg op (by simp [hop])
  have hg2 : ∀ op ∈ l2, goodOp op = true := fun op hop => hg op (by simp [hop])
  have hs1 := sumAmounts_nonneg l1 hg1
  have hs2 := sumAmounts_nonneg l2 hg2
  have hsum : ((l1 ++ l2).map opAmount).sum
      = (l1.map opAmount).sum + (l2.map opAmount).sum := by
    simp
  rw [hsum] at hb
  have hc1 : (runOps a l1).current = a.current + (l1.map opAmount).sum :=
    runOps_current_eq l1 a hlo hg1 (by linarith)
  have happ : runOps a (l1 ++ l2) = runOps (runOps a l1) l2 := by
    simp [runOps, List.foldl_append]
  have hc2 : (runOps (runOps a l1) l2).current
      = (runOps a l1).current + (l2.map opAmount).sum :=
    runOps_current_eq l2 (runOps a l1) (by rw [hc1]; linarith) hg2 (by rw [hc1]; linarith)
  constructor
  · rw [hc1]; linarith
  · rw [happ, hc2]; linarith

/-- Claim C4 witness: `progress_monotone_without_set` applied to the sequence
`Add 5; Read 3; Update` split after the first operation. -/
theorem progress_monotone_without_set_witness :
    (newAccounter 0 0).current
        ≤ (runOps (newAccounter 0 0) [AcctOp.add 5]).current ∧
    (runOps (newAccounter 0 0) [AcctOp.add 5]).current
        ≤ (runOps (newAccounter 0 0) [AcctOp.add 5, AcctOp.read 3, AcctOp.update]).current :=
  progress_monotone_without_set (newAccounter 0 0)
    [AcctOp.add 5, AcctOp.read 3, AcctOp.update] [AcctOp.add 5]
    [AcctOp.read 3, AcctOp.update] rfl (by decide) (by decide) (by decide)

/-- Claim C5: the `finishOnce` body of `Stat` reads `current` twice, not
once: a plain read on line 89 (value `c1`, stored in `Transferred`) and a
separate `atomic.LoadInt64` on line 90 (value `c2`, fed to the speed
formula).  With a concurrent `Add 10` landing between the two reads of a
fresh counter (`c1 = 0`, `c2 = 10`, one second after start), the snapshot has
`Transferred = 0` but `Speed = 10`, while the speed formula applied to the
captured `Transferred` value gives 0: the two fields do not agree, refuting
the single-atomic-read claim on the code. -/
theorem stat_two_reads_disagree :
    (statBodyReads (newAccounter 100 0) 0 10 1000000000).Transferred = 0 ∧
    (statBodyReads (newAccounter 100 0) 0 10 1000000000).Speed = 10 ∧
    write (newAccounter 100 0)
        ((statBodyReads (newAccounter 100 0) 0 10 1000000000).Transferred) 1000000000 = 0 ∧
    (statBodyReads (newAccounter 100 0) 0 10 1000000000).Speed
      ≠ write (newAccounter 100 0)
          ((statBodyReads (newAccounter 100 0) 0 10 1000000000).Transferred) 1000000000 := by
  refine ⟨rfl, ?_, ?_, ?_⟩
  · norm_num [statBodyReads, write, newAccounter]
  · norm_num [statBodyReads, write, newAccounter]
  · norm_num [statBodyReads, write, newAccounter]

/-- Claim C6: (i) starting from a fresh accounter, running any operation
sequence closes the `isFinished` channel exactly once when the sequence
contains at least one `Stat` call and never otherwise — the first `Stat`
closes it inside `finishOnce.Do` and no second close ever occurs; (ii) in the
background `writer` loop, once the `select` takes the `<-a.isFinished` case
the goroutine returns at once: the outcome is the same whatever events follow
the first `stop`, so no recompute is performed after it. -/
theorem close_once_and_writer_stops (total t0 : Int) (ops : List AcctOp)
    (b : accounter) (l1 l2 : List WriterEv) :
    closeCount (newAccounter total t0) ops = (if ops.any isStat then 1 else 0) ∧
    writerLoop b (l1 ++ WriterEv.stop :: l2) = writerLoop b (l1 ++ [WriterEv.stop]) := by
  constructor
  · exact closeCount_of_not_done ops (newAccounter total t0) rfl
  · induction l1 generalizing b with
    | nil => rfl
    | cons ev l1 ih =>
        cases ev with
        | stop => rfl
        | tick =>
            show writerLoop (Update b) (l1 ++ WriterEv.stop :: l2)
                = writerLoop (Update b) (l1 ++ [WriterEv.stop])
            exact ih (Update b)

/-- Claim C7, counterexample: on a counter whose progress sits at the int64
maximum `2^63 - 1`, `Read` of a 1-byte buffer wraps `current` to `-2^63`
instead of increasing it by 1. -/
theorem read_overflow_cx :
    ¬(((Read (Set (newAccounter 0 0) (2 ^ 63 - 1)) 1).2).current
        = (Set (newAccounter 0 0) (2 ^ 63 - 1)).current + 1) := by
  decide

/-- Claim C7 (amended): for every buffer length `L`, `Read` returns the pair
`(L, nil)` in every counter state, and increases `progress` by exactly `L`
provided `progress + L` stays below `2^63` (int64 overflow wraps). -/
theorem read_returns_len_and_adds (a : accounter) (L : Nat)
    (hlo : -(2 ^ 63) ≤ a.current) (hb : a.current + (L : Int) < 2 ^ 63) :
    (Read a L).1 = (L, none) ∧ ((Read a L).2).current = a.current + (L : Int) := by
  refine ⟨rfl, ?_⟩
  simp only [Read, Add]
  exact int64wrap_eq_self (by have := Int.natCast_nonneg L; linarith) hb

/-- Claim C7 witness: `read_returns_len_and_adds` on a fresh accounter with a
42-byte buffer: the call returns `(42, nil)` and progress becomes 42. -/
theorem read_returns_len_and_adds_witness :
    (Read (newAccounter 100 0) 42).1 = (42, none) ∧
    ((Read (newAccounter 100 0) 42).2).current = 42 := by
  have h := read_returns_len_and_adds (newAccounter 100 0) 42 (by decide) (by decide)
  exact ⟨h.1, by rw [h.2]; decide⟩

/-- Claim C8: `Set n` overwrites `progress` with the absolute value `n`
regardless of the previous value, and returns the accounter itself (the
updated state) for chaining. -/
theorem set_overwrites (a : accounter) (n : Int)
    (hlo : -(2 ^ 63) ≤ n) (hhi : n < 2 ^ 63) :
    Set a n = { a with current := n } := by
  unfold Set
  rw [int64wrap_eq_self hlo hhi]

/-- Claim C8 witness: `set_overwrites` applied twice: `Set 500` then
`Set 300` leaves progress at 300 (overwrite, not additive). -/
theorem set_overwrites_witness :
    Set (Set (newAccounter 0 0) 500) 300 = { newAccounter 0 0 with current := 300 } ∧
    (Set (Set (newAccounter 0 0) 500) 300).current = 300 := by
  have h300 := set_overwrites (Set (newAccounter 0 0) 500) 300 (by decide) (by decide)
  have h500 := set_overwrites (newAccounter 0 0) 500 (by decide) (by decide)
  constructor
  · rw [h300, h500]
  · rw [h300]

/-- Claim C9: if no `Add`, `Set` or `Read` occurs between construction and
the first `Stat` call (any number of background `Update` ticks may run), the
returned snapshot has `Transferred = 0` and `Speed` exactly 0. -/
theorem stat_fresh_zero (total t0 : Int) (k : Nat) (now : Int) :
    (Stat (Update^[k] (newAccounter total t0)) now).1.Transferred = 0 ∧
    (Stat (Update^[k] (newAccounter total t0)) now).1.Speed = 0 := by
  have hf := Update_iterate_frame k (newAccounter total t0)
  have hcur : (Update^[k] (newAccounter total t0)).current = 0 := by
    rw [hf.1]; rfl
  have hsv : (Update^[k] (newAccounter total t0)).startValue = 0 := by
    rw [hf.2.1]; rfl
  have hdone : (Update^[k] (newAccounter total t0)).finishOnceDone = false := by
    rw [hf.2.2.2.1]; rfl
  have hfst : (Stat (Update^[k] (newAccounter total t0)) now).1
      = statBodyReads (Update^[k] (newAccounter total t0))
          ((Update^[k] (newAccounter total t0)).current)
          ((Update^[k] (newAccounter total t0)).current) now :=
    Stat_fst_of_not_done (Update^[k] (newAccounter total t0)) now hdone
  rw [hfst]
  constructor
  · simpa [statBodyReads] using hcur
  · simp only [statBodyReads, write]
    rw [hcur, hsv]
    norm_num

/-- Claim C10: `Stat` leaves `current`, `Total`, `startTime`, `startValue`,
`refreshRate` (and the `currentValue` cache) unchanged — its only state
effects are consuming the `sync.Once` latch and closing `isFinished` — so
`progress` after any number of `Stat` calls equals `progress` before them. -/
theorem stat_frame (a : accounter) (now : Int) (k : Nat) :
    ((Stat a now).2).current = a.current ∧
    ((Stat a now).2).Total = a.Total ∧
    ((Stat a now).2).startTime = a.startTime ∧
    ((Stat a now).2).startValue = a.startValue ∧
    ((Stat a now).2).refreshRate = a.refreshRate ∧
    ((Stat a now).2).currentValue = a.currentValue ∧
    ((fun b => (Stat b now).2)^[k] a).current = a.current := by
  have h := Stat_snd_frame a now
  exact ⟨h.1, h.2.1, h.2.2.1, h.2.2.2.1, h.2.2.2.2.1, h.2.2.2.2.2,
    statAt_iterate_current now k a⟩

end AccountingReader
